import Mathlib

/-
Verification of the receipt-reader normalization pipeline and request handler
(the serverless function in the repository). The JavaScript semantics relevant
to the normalizer is shallowly embedded: JSON-like values as an inductive type,
JS truthiness, property access, parseInt with base 10, comma stripping, and
Number.prototype.toLocaleString with ja-JP digit grouping. Numbers are
modelled as integers (the inputs of interest are integer amount strings).
-/

namespace ReceiptReader

/-- JSON-like JavaScript values: the possible shapes of the data parsed from
the upstream response and of the request body. Numbers are modelled as
integers. -/
inductive JSValue where
  | undefined : JSValue
  | null : JSValue
  | bool : Bool → JSValue
  | num : Int → JSValue
  | str : String → JSValue
  | arr : List JSValue → JSValue
  | obj : List (String × JSValue) → JSValue
deriving Repr

/-- JavaScript truthiness for the modelled values: `undefined`, `null`,
`false`, `0` and the empty string are falsy; every other value (including
every array and object) is truthy. -/
def truthy : JSValue → Bool
  | .undefined => false
  | .null => false
  | .bool b => b
  | .num n => n != 0
  | .str s => s != ""
  | .arr _ => true
  | .obj _ => true

/-- Property access `v.k` for values on which it does not throw: a missing
key, or a non-object receiver, yields `undefined` (as in JS for truthy
primitives, arrays without the key, etc.). Access on `null`/`undefined`
throws in JS and is handled separately in `normalize`. -/
def getF (v : JSValue) (k : String) : JSValue :=
  match v with
  | .obj fs =>
    match fs.find? (fun p => p.1 == k) with
    | some p => p.2
    | none => .undefined
  | _ => .undefined

/-- Characters kept by the separator-stripping step: everything except the
ASCII comma and the full-width comma, mirroring `replace(/[,，]/g, "")`. -/
def keepChar (c : Char) : Bool :=
  !(c == ',' || c == '，')

/-- `replace(/[,，]/g, "")`: remove every ASCII and full-width comma. -/
def stripCommas (s : String) : String :=
  String.mk (s.data.filter keepChar)

/-- The whitespace characters skipped by JS `parseInt` before the sign
(the common ones: space, tab, line feed, carriage return). -/
def isWs (c : Char) : Bool :=
  c == ' ' || c == '\t' || c == '\n' || c == '\r'

/-- ASCII decimal digit test. -/
def isDigit (c : Char) : Bool :=
  48 ≤ c.toNat && c.toNat ≤ 57

/-- Value of a little-endian (least significant digit first) digit list. -/
def valRev : List Char → Nat
  | [] => 0
  | c :: cs => (c.toNat - 48) + 10 * valRev cs

/-- Value of a big-endian decimal digit list. -/
def digitsVal (cs : List Char) : Nat :=
  valRev cs.reverse

/-- The longest digit run at the head of the character list, as a number;
`none` when there is no digit there (parseInt's NaN case). -/
def leadingDigitsVal (l : List Char) : Option Nat :=
  let ds := l.takeWhile isDigit
  if ds = [] then none else some (digitsVal ds)

/-- The sign-and-digits phase of `parseInt`: consume an optional sign, then
the longest run of decimal digits; `none` models NaN (no digits). -/
def parseIntList : List Char → Option Int
  | [] => none
  | c :: rest =>
    if c = '-' then (leadingDigitsVal rest).map (fun v => -(Int.ofNat v))
    else if c = '+' then (leadingDigitsVal rest).map Int.ofNat
    else (leadingDigitsVal (c :: rest)).map Int.ofNat

/-- JS `parseInt(s, 10)`: skip leading whitespace, consume an optional sign,
then the longest run of decimal digits; `none` models NaN (no digits). -/
def parseIntJS (s : String) : Option Int :=
  parseIntList (s.data.dropWhile isWs)

/-- Helper for `natToDigitsRev`: structural recursion on a fuel argument so
that the definition reduces by evaluation; the fuel never runs out when it
starts at least as large as the number. -/
def natToDigitsRevAux : Nat → Nat → List Char
  | _, 0 => []
  | 0, _ + 1 => []
  | fuel + 1, m + 1 => Nat.digitChar ((m + 1) % 10) :: natToDigitsRevAux fuel ((m + 1) / 10)

/-- Little-endian decimal digits of a natural number (empty for 0). -/
def natToDigitsRev (n : Nat) : List Char :=
  natToDigitsRevAux n n

/-- Decimal rendering of a natural number, as JS `toString` produces it. -/
def natToString (n : Nat) : String :=
  if n = 0 then "0" else String.mk (natToDigitsRev n).reverse

/-- Decimal rendering of an integer, as JS `Number.prototype.toString`. -/
def intToString (n : Int) : String :=
  if n < 0 then "-" ++ natToString n.natAbs else natToString n.toNat

/-- Insert a comma after every group of three characters of a little-endian
digit list (no trailing comma): the digit-grouping of `toLocaleString`. -/
def insertCommasRev : List Char → List Char
  | [] => []
  | [a] => [a]
  | [a, b] => [a, b]
  | [a, b, c] => [a, b, c]
  | a :: b :: c :: d :: rest => a :: b :: c :: ',' :: insertCommasRev (d :: rest)

/-- Grouped decimal rendering of a natural number. -/
def groupNat (m : Nat) : String :=
  if m = 0 then "0" else String.mk (insertCommasRev (natToDigitsRev m)).reverse

/-- `Number.prototype.toLocaleString("ja-JP")` for an integer: decimal
digits grouped in threes by ASCII commas, with a leading minus sign for
negative numbers. -/
def toLocaleStringJa (n : Int) : String :=
  if n < 0 then "-" ++ groupNat n.natAbs else groupNat n.toNat

mutual
/-- JS string conversion (`String(v)` / `.toString()`) for the modelled
values: numbers render in decimal, arrays join their elements with commas
(`null`/`undefined` elements become empty), plain objects render as
`[object Object]`. -/
def jsToString : JSValue → String
  | .undefined => "undefined"
  | .null => "null"
  | .bool b => if b then "true" else "false"
  | .num n => intToString n
  | .str s => s
  | .arr xs => jsArrToString xs
  | .obj _ => "[object Object]"

/-- `Array.prototype.toString`: elements joined with commas, nullish
elements rendered as the empty string. -/
def jsArrToString : List JSValue → String
  | [] => ""
  | [x] =>
    (match x with
     | .undefined => ""
     | .null => ""
     | v => jsToString v)
  | x :: y :: rest =>
    (match x with
     | .undefined => ""
     | .null => ""
     | v => jsToString v) ++ "," ++ jsArrToString (y :: rest)
end

/-- `(v || "0").toString()`: the text from which an amount is parsed
(source lines 138 and 145). -/
def rawAmountString (v : JSValue) : String :=
  jsToString (if truthy v then v else .str "0")

/-- The amount-parsing rule shared by the receipt total and the item
prices: take the raw value or `"0"` when falsy, strip all ASCII and
full-width commas, `parseInt(..., 10)`, and substitute 0 when that is NaN
(source lines 138-139 and 145-146). -/
def parseAmount (v : JSValue) : Int :=
  (parseIntJS (stripCommas (rawAmountString v))).getD 0

/-- The closed category enumeration checked by the receipt-level membership
test (source line 156). -/
def categories : List String :=
  ["food", "transport", "daily", "entertainment", "medical", "education", "other"]

/-- Receipt-level category resolution (source lines 154-158):
`data.categoryId && [...].includes(data.categoryId) ? data.categoryId : "other"`.
`includes` uses strict equality, so only a string can pass the membership
test; everything else resolves to `"other"`. -/
def resolveCategory (v : JSValue) : String :=
  if truthy v then
    match v with
    | .str s => if s ∈ categories then s else "other"
    | _ => "other"
  else "other"

/-- One item of the normalized output (source lines 147-151): the name is
passed through as-is, the price is a formatted string, and the category is
whatever JS value the `||` chain produced. -/
structure OutItem where
  name : JSValue
  price : String
  categoryId : JSValue
deriving Repr

/-- The normalized receipt built at source lines 160-175. -/
structure Output where
  storeName : JSValue
  date : JSValue
  total : String
  categoryId : String
  items : List OutItem
deriving Repr

/-- The raw item list: `Array.isArray(data.items) ? data.items : []`
(source line 141). -/
def rawItems (data : JSValue) : List JSValue :=
  match getF data "items" with
  | .arr xs => xs
  | _ => []

/-- The filter `(item) => item && item.name` (source line 143). -/
def survivorPred (it : JSValue) : Bool :=
  truthy it && truthy (getF it "name")

/-- The raw items surviving the name filter. -/
def rawSurvivors (data : JSValue) : List JSValue :=
  (rawItems data).filter survivorPred

/-- The map over surviving items (source lines 144-152). `dataCat` is the
raw receipt-level `data.categoryId`; the item category is
`item.categoryId || data.categoryId || "other"` — a truthiness chain, not a
membership check. -/
def mapItem (dataCat : JSValue) (it : JSValue) : OutItem :=
  { name := getF it "name"
    price := toLocaleStringJa (parseAmount (getF it "price"))
    categoryId :=
      if truthy (getF it "categoryId") then getF it "categoryId"
      else if truthy dataCat then dataCat
      else .str "other" }

/-- The normalization pipeline of source lines 127-175, for a `data` value
on which property access does not throw. `now` is the formatted current
time used as the date fallback. -/
def normalizeCore (now : String) (data : JSValue) : Output :=
  let safeStoreName :=
    if truthy (getF data "storeName") then getF data "storeName"
    else .str "店舗名不明"
  let safeDate :=
    if truthy (getF data "date") then getF data "date" else .str now
  let numericTotal := parseAmount (getF data "total")
  let mappedItems := (rawSurvivors data).map (mapItem (getF data "categoryId"))
  let categoryId := resolveCategory (getF data "categoryId")
  { storeName := safeStoreName
    date := safeDate
    total := toLocaleStringJa numericTotal
    categoryId := categoryId
    items :=
      if mappedItems.length > 0 then mappedItems
      else [{ name := .str "商品"
              price := toLocaleStringJa numericTotal
              categoryId := .str categoryId }] }

/-- The normalization step as executed: accessing `data.storeName` on
`null` or `undefined` throws a TypeError in JS (caught by the surrounding
handler), so those inputs produce an error instead of a normalized
receipt; every other value reaches `normalizeCore`. -/
def normalize (now : String) (data : JSValue) : Except String Output :=
  match data with
  | .null => .error "TypeError: cannot read properties of null"
  | .undefined => .error "TypeError: cannot read properties of undefined"
  | _ => .ok (normalizeCore now data)

/-- Re-reading a normalized item as a raw JS value (the shape the handler
serializes at source line 177). -/
def outItemToJS (it : OutItem) : JSValue :=
  .obj [("name", it.name), ("price", .str it.price), ("categoryId", it.categoryId)]

/-- Re-reading a normalized receipt as a raw JS value. -/
def outputToJS (o : Output) : JSValue :=
  .obj [("storeName", o.storeName), ("date", o.date), ("total", .str o.total),
        ("categoryId", .str o.categoryId),
        ("items", .arr (o.items.map outItemToJS))]

/-- The well-formedness actually guaranteed by the normalizer: truthy store
name and date, a formatted integer total, a receipt category from the
closed enumeration, and a non-empty item list whose members have truthy
names, formatted integer prices and truthy categories. -/
def WF (o : Output) : Prop :=
  truthy o.storeName = true ∧ truthy o.date = true ∧
  (∃ n : Int, o.total = toLocaleStringJa n) ∧
  o.categoryId ∈ categories ∧ o.items ≠ [] ∧
  ∀ it ∈ o.items, truthy it.name = true ∧
    (∃ m : Int, it.price = toLocaleStringJa m) ∧ truthy it.categoryId = true

/-- An incoming request: its method and its parsed body (`req.body`). -/
structure Request where
  method : String
  body : JSValue

/-- What the handler does before (or instead of) contacting the external
API: respond immediately with a status and JSON body, or issue the
external call with the given image source. -/
inductive HandlerStep where
  | respond : Nat → JSValue → HandlerStep
  | callApi : String → HandlerStep
deriving Repr

/-- `!apiKey` is true when the environment variable is unset or empty. -/
def hasKey : Option String → Bool
  | none => false
  | some s => s != ""

/-- `req.body || {}` (source line 19). -/
def bodyOr (b : JSValue) : JSValue :=
  if truthy b then b else .obj []

/-- The `imageSrc` guard (source lines 21-24): a falsy or non-string value
is rejected with a 400 response; a non-empty string goes to the external
call. -/
def imageSrcCheck : JSValue → HandlerStep
  | .str s =>
    if s = "" then .respond 400 (.obj [("error", .str "imageSrc is required.")])
    else .callApi s
  | _ => .respond 400 (.obj [("error", .str "imageSrc is required.")])

/-- The guard phase of the handler (source lines 6-24): the method check,
the API-key check, and the `imageSrc` check, in that order; when all pass,
the external call is issued with the request's `imageSrc`. -/
def handlerPhase1 (apiKey : Option String) (req : Request) : HandlerStep :=
  if req.method ≠ "POST" then
    .respond 405 (.obj [("error", .str "Method not allowed")])
  else if hasKey apiKey = false then
    .respond 500 (.obj [("error", .str "OPENAI_API_KEY is not set on the server.")])
  else
    imageSrcCheck (getF (bodyOr req.body) "imageSrc")

/-! ### Digit and formatting lemmas -/

theorem digitChar_isDigit : ∀ k, k < 10 → isDigit (Nat.digitChar k) = true := by
  decide

theorem digitChar_val : ∀ k, k < 10 → (Nat.digitChar k).toNat - 48 = k := by
  decide

theorem natToDigitsRevAux_fuel :
    ∀ f1, ∀ f2 n, n ≤ f1 → n ≤ f2 →
      natToDigitsRevAux f1 n = natToDigitsRevAux f2 n := by
  intro f1
  induction f1 using Nat.strong_induction_on with
  | _ f1 ih =>
    intro f2 n h1 h2
    match n with
    | 0 =>
      cases f1 <;> cases f2 <;> rfl
    | m + 1 =>
      cases f1 with
      | zero => omega
      | succ g1 =>
        cases f2 with
        | zero => omega
        | succ g2 =>
          show Nat.digitChar ((m + 1) % 10) :: natToDigitsRevAux g1 ((m + 1) / 10) =
            Nat.digitChar ((m + 1) % 10) :: natToDigitsRevAux g2 ((m + 1) / 10)
          have hq : (m + 1) / 10 ≤ m := by
            have := Nat.div_lt_self (Nat.succ_pos m) (by omega : 1 < 10)
            omega
          rw [ih g1 (by omega) g2 ((m + 1) / 10) (by omega) (by omega)]

/-- The recursion equation of `natToDigitsRev` at a positive argument. -/
theorem natToDigitsRev_unfold (m : Nat) :
    natToDigitsRev (m + 1) =
      Nat.digitChar ((m + 1) % 10) :: natToDigitsRev ((m + 1) / 10) := by
  show natToDigitsRevAux (m + 1) (m + 1) = _
  have hq : (m + 1) / 10 ≤ m := by
    have := Nat.div_lt_self (Nat.succ_pos m) (by omega : 1 < 10)
    omega
  show Nat.digitChar ((m + 1) % 10) :: natToDigitsRevAux m ((m + 1) / 10) = _
  rw [natToDigitsRevAux_fuel m ((m + 1) / 10) ((m + 1) / 10) hq le_rfl]
  rfl

theorem natToDigitsRev_digits :
    ∀ m, ∀ c ∈ natToDigitsRev m, isDigit c = true := by
  intro m
  induction m using Nat.strong_induction_on with
  | _ m ih =>
    match m with
    | 0 => intro c hc; simp [natToDigitsRev, natToDigitsRevAux] at hc
    | n + 1 =>
      intro c hc
      rw [natToDigitsRev_unfold] at hc
      rcases List.mem_cons.mp hc with h | h
      · subst h; exact digitChar_isDigit _ (Nat.mod_lt _ (by omega))
      · exact ih ((n + 1) / 10) (Nat.div_lt_self (Nat.succ_pos n) (by omega)) c h

theorem valRev_natToDigitsRev : ∀ m, valRev (natToDigitsRev m) = m := by
  intro m
  induction m using Nat.strong_induction_on with
  | _ m ih =>
    match m with
    | 0 => simp [natToDigitsRev, natToDigitsRevAux, valRev]
    | n + 1 =>
      rw [natToDigitsRev_unfold, valRev,
        ih ((n + 1) / 10) (Nat.div_lt_self (Nat.succ_pos n) (by omega)),
        digitChar_val _ (Nat.mod_lt _ (by omega))]
      omega

theorem natToDigitsRev_ne_nil {m : Nat} (h : m ≠ 0) : natToDigitsRev m ≠ [] := by
  match m with
  | 0 => exact absurd rfl h
  | n + 1 => rw [natToDigitsRev_unfold]; exact List.cons_ne_nil _ _

theorem isDigit_keepChar {c : Char} (h : isDigit c = true) : keepChar c = true := by
  simp only [isDigit, Bool.and_eq_true, decide_eq_true_eq] at h
  simp only [keepChar, Bool.not_eq_true']
  have h1 : c ≠ ',' := fun e => absurd (e ▸ h) (by decide)
  have h2 : c ≠ '，' := fun e => absurd (e ▸ h) (by decide)
  simp [h1, h2]

theorem isDigit_not_ws {c : Char} (h : isDigit c = true) : isWs c = false := by
  simp only [isDigit, Bool.and_eq_true, decide_eq_true_eq] at h
  have h1 : c ≠ ' ' := fun e => absurd (e ▸ h) (by decide)
  have h2 : c ≠ '\t' := fun e => absurd (e ▸ h) (by decide)
  have h3 : c ≠ '\n' := fun e => absurd (e ▸ h) (by decide)
  have h4 : c ≠ '\r' := fun e => absurd (e ▸ h) (by decide)
  simp [isWs, h1, h2, h3, h4]

theorem isDigit_ne_minus {c : Char} (h : isDigit c = true) : c ≠ '-' := by
  simp only [isDigit, Bool.and_eq_true, decide_eq_true_eq] at h
  exact fun e => absurd (e ▸ h) (by decide)

theorem isDigit_ne_plus {c : Char} (h : isDigit c = true) : c ≠ '+' := by
  simp only [isDigit, Bool.and_eq_true, decide_eq_true_eq] at h
  exact fun e => absurd (e ▸ h) (by decide)

theorem filter_insertCommasRev :
    ∀ cs : List Char, (∀ c ∈ cs, keepChar c = true) →
      (insertCommasRev cs).filter keepChar = cs := by
  intro cs
  induction cs using insertCommasRev.induct with
  | case1 => intro hall; rfl
  | case2 a =>
    intro hall
    rw [insertCommasRev, List.filter_eq_self.mpr hall]
  | case3 a b =>
    intro hall
    rw [insertCommasRev, List.filter_eq_self.mpr hall]
  | case4 a b c =>
    intro hall
    rw [insertCommasRev, List.filter_eq_self.mpr hall]
  | case5 a b c d rest ih =>
    intro hall
    have ha := hall a (by simp)
    have hb := hall b (by simp)
    have hc := hall c (by simp)
    have hcomma : keepChar ',' = false := by decide
    have hrec := ih fun x hx => hall x (by simp [hx])
    rw [insertCommasRev, List.filter_cons, ha, List.filter_cons, hb,
      List.filter_cons, hc, List.filter_cons, hcomma, hrec]
    simp

theorem takeWhile_append_of_head :
    ∀ (ds rest : List Char), (∀ c ∈ ds, isDigit c = true) →
      (∀ c ∈ rest.head?, isDigit c = false) →
      (ds ++ rest).takeWhile isDigit = ds := by
  intro ds rest hds hrest
  induction ds with
  | nil =>
    simp only [List.nil_append]
    match rest with
    | [] => rfl
    | c :: tl =>
      have hc := hrest c (by simp)
      rw [List.takeWhile_cons_of_neg (by simp [hc])]
  | cons c tl ih =>
    have hc := hds c (by simp)
    rw [List.cons_append, List.takeWhile_cons_of_pos hc,
      ih fun x hx => hds x (by simp [hx])]

theorem parseIntJS_cons (c : Char) (l : List Char) (hw : isWs c = false) :
    parseIntJS (String.mk (c :: l)) =
      (if c = '-' then (leadingDigitsVal l).map (fun v => -(Int.ofNat v))
       else if c = '+' then (leadingDigitsVal l).map Int.ofNat
       else (leadingDigitsVal (c :: l)).map Int.ofNat) := by
  have hd : (String.mk (c :: l)).data.dropWhile isWs = c :: l := by
    show (c :: l).dropWhile isWs = c :: l
    rw [List.dropWhile_cons_of_neg (by simp [hw])]
  rw [parseIntJS, hd, parseIntList]

theorem leadingDigitsVal_append (ds rest : List Char) (hne : ds ≠ [])
    (hds : ∀ c ∈ ds, isDigit c = true)
    (hrest : ∀ c ∈ rest.head?, isDigit c = false) :
    leadingDigitsVal (ds ++ rest) = some (digitsVal ds) := by
  rw [leadingDigitsVal]
  simp only [takeWhile_append_of_head ds rest hds hrest]
  rw [if_neg hne]

/-- `parseIntJS` on a non-empty digit run followed by arbitrary text whose
first character is not a digit: the result is the value of the digit run. -/
theorem parseIntJS_digits (ds rest : List Char) (hne : ds ≠ [])
    (hds : ∀ c ∈ ds, isDigit c = true)
    (hrest : ∀ c ∈ rest.head?, isDigit c = false) :
    parseIntJS (String.mk (ds ++ rest)) = some (digitsVal ds : Int) := by
  match ds, hne with
  | d :: tl, _ =>
    have hd := hds d (by simp)
    rw [List.cons_append, parseIntJS_cons d (tl ++ rest) (isDigit_not_ws hd),
      if_neg (isDigit_ne_minus hd), if_neg (isDigit_ne_plus hd),
      ← List.cons_append,
      leadingDigitsVal_append _ _ (List.cons_ne_nil d tl) hds hrest]
    rfl

/-- `parseIntJS` on a minus sign, a non-empty digit run and non-digit
trailing text: the negated value of the digit run. -/
theorem parseIntJS_neg_digits (ds rest : List Char) (hne : ds ≠ [])
    (hds : ∀ c ∈ ds, isDigit c = true)
    (hrest : ∀ c ∈ rest.head?, isDigit c = false) :
    parseIntJS (String.mk ('-' :: (ds ++ rest))) = some (-(digitsVal ds : Int)) := by
  rw [parseIntJS_cons '-' (ds ++ rest) (by decide), if_pos rfl,
    leadingDigitsVal_append _ _ hne hds hrest]
  rfl

theorem digitsVal_natToDigitsRev (m : Nat) :
    digitsVal (natToDigitsRev m).reverse = m := by
  rw [digitsVal, List.reverse_reverse, valRev_natToDigitsRev]

theorem stripCommas_mk (l : List Char) :
    stripCommas (String.mk l) = String.mk (l.filter keepChar) := rfl

theorem groupNat_strip (m : Nat) (h : m ≠ 0) :
    stripCommas (groupNat m) = String.mk (natToDigitsRev m).reverse := by
  rw [groupNat, if_neg h, stripCommas_mk, List.filter_reverse,
    filter_insertCommasRev _ fun c hc => isDigit_keepChar (natToDigitsRev_digits m c hc)]

/-- Stripping the separators from a `toLocaleString` rendering and parsing
the remainder recovers the original integer. -/
theorem parse_roundtrip (n : Int) :
    parseIntJS (stripCommas (toLocaleStringJa n)) = some n := by
  by_cases h : n < 0
  · rw [toLocaleStringJa, if_pos h]
    have hne : n.natAbs ≠ 0 := by omega
    have hstrip : stripCommas ("-" ++ groupNat n.natAbs) =
        String.mk ('-' :: (natToDigitsRev n.natAbs).reverse) := by
      have hdata : ("-" ++ groupNat n.natAbs).data = '-' :: (groupNat n.natAbs).data := rfl
      rw [stripCommas, hdata, List.filter_cons]
      have hkeep : keepChar '-' = true := by decide
      rw [hkeep]
      have hrest : ((groupNat n.natAbs).data.filter keepChar) =
          (natToDigitsRev n.natAbs).reverse :=
        congrArg String.data (groupNat_strip n.natAbs hne)
      simp [hrest]
    rw [hstrip]
    have hds : ∀ c ∈ (natToDigitsRev n.natAbs).reverse, isDigit c = true :=
      fun c hc => natToDigitsRev_digits _ c (List.mem_reverse.mp hc)
    have hne2 : (natToDigitsRev n.natAbs).reverse ≠ [] := by
      simp [natToDigitsRev_ne_nil hne]
    have hp := parseIntJS_neg_digits ((natToDigitsRev n.natAbs).reverse) [] hne2 hds (by simp)
    rw [List.append_nil] at hp
    rw [hp, digitsVal_natToDigitsRev]
    simp only [Option.some.injEq]
    omega
  · rw [toLocaleStringJa, if_neg h]
    by_cases h0 : n.toNat = 0
    · have hn0 : n = 0 := by omega
      subst hn0
      rfl
    · rw [groupNat_strip _ h0]
      have hds : ∀ c ∈ (natToDigitsRev n.toNat).reverse, isDigit c = true :=
        fun c hc => natToDigitsRev_digits _ c (List.mem_reverse.mp hc)
      have hne2 : (natToDigitsRev n.toNat).reverse ≠ [] := by
        simp [natToDigitsRev_ne_nil h0]
      have hp := parseIntJS_digits ((natToDigitsRev n.toNat).reverse) [] hne2 hds (by simp)
      rw [List.append_nil] at hp
      rw [hp, digitsVal_natToDigitsRev]
      simp only [Option.some.injEq]
      omega

theorem groupNat_ne_empty (m : Nat) : groupNat m ≠ "" := by
  by_cases h : m = 0
  · subst h; decide
  · rw [groupNat, if_neg h]
    intro he
    have hrev : (insertCommasRev (natToDigitsRev m)).reverse = [] :=
      congrArg String.data he
    have hnil : insertCommasRev (natToDigitsRev m) = [] := by
      simpa using hrev
    have hne := natToDigitsRev_ne_nil h
    match hd : natToDigitsRev m, hne with
    | a :: tl, _ =>
      rw [hd] at hnil
      match tl with
      | [] => exact List.cons_ne_nil _ _ hnil
      | [b] => exact List.cons_ne_nil _ _ hnil
      | [b, c] => exact List.cons_ne_nil _ _ hnil
      | b :: c :: d :: rest => exact List.cons_ne_nil _ _ hnil

theorem toLocaleStringJa_ne_empty (n : Int) : toLocaleStringJa n ≠ "" := by
  rw [toLocaleStringJa]
  by_cases h : n < 0
  · rw [if_pos h]
    intro he
    have : ("-" ++ groupNat n.natAbs).data = [] := congrArg String.data he
    simp [String.data_append] at this
  · rw [if_neg h]; exact groupNat_ne_empty _

/-- Formatted amounts parse back to the number they render. -/
theorem parseAmount_fmt (n : Int) :
    parseAmount (.str (toLocaleStringJa n)) = n := by
  have ht : truthy (.str (toLocaleStringJa n)) = true := by
    simp [truthy, toLocaleStringJa_ne_empty n]
  rw [parseAmount, rawAmountString, ht, if_pos rfl, jsToString, parse_roundtrip]
  rfl

theorem categories_ne_empty {s : String} (h : s ∈ categories) : s ≠ "" := by
  simp only [categories, List.mem_cons, List.not_mem_nil, or_false] at h
  rcases h with rfl | rfl | rfl | rfl | rfl | rfl | rfl <;> decide

theorem resolveCategory_mem (v : JSValue) : resolveCategory v ∈ categories := by
  cases v with
  | str s =>
    by_cases h0 : s = ""
    · subst h0; decide
    · have ht : truthy (.str s) = true := by simp [truthy, h0]
      show (if truthy (.str s) = true then
          (if s ∈ categories then s else "other") else "other") ∈ categories
      rw [if_pos ht]
      by_cases hs : s ∈ categories
      · rw [if_pos hs]; exact hs
      · rw [if_neg hs]; decide
  | undefined => decide
  | null => decide
  | bool b =>
    show (if truthy (.bool b) = true then "other" else "other") ∈ categories
    rw [ite_self]; decide
  | num n =>
    show (if truthy (.num n) = true then "other" else "other") ∈ categories
    rw [ite_self]; decide
  | arr xs =>
    show (if truthy (.arr xs) = true then "other" else "other") ∈ categories
    rw [ite_self]; decide
  | obj fs =>
    show (if truthy (.obj fs) = true then "other" else "other") ∈ categories
    rw [ite_self]; decide

theorem resolveCategory_of_mem {s : String} (h : s ∈ categories) :
    resolveCategory (.str s) = s := by
  have hne : s ≠ "" := categories_ne_empty h
  have ht : truthy (.str s) = true := by simp [truthy, hne]
  show (if truthy (.str s) = true then
      (if s ∈ categories then s else "other") else "other") = s
  rw [if_pos ht, if_pos h]

/-! ### Normalizer invariants and fixed-point lemmas -/

theorem outputExt (x y : Output) (h1 : x.storeName = y.storeName)
    (h2 : x.date = y.date) (h3 : x.total = y.total)
    (h4 : x.categoryId = y.categoryId) (h5 : x.items = y.items) : x = y := by
  cases x; cases y; simp_all

theorem outItemExt (x y : OutItem) (h1 : x.name = y.name)
    (h2 : x.price = y.price) (h3 : x.categoryId = y.categoryId) : x = y := by
  cases x; cases y; simp_all

theorem normalizeCore_storeName (now : String) (data : JSValue) :
    (normalizeCore now data).storeName =
      if truthy (getF data "storeName") then getF data "storeName"
      else .str "店舗名不明" := rfl

theorem normalizeCore_date (now : String) (data : JSValue) :
    (normalizeCore now data).date =
      if truthy (getF data "date") then getF data "date" else .str now := rfl

theorem normalizeCore_total (now : String) (data : JSValue) :
    (normalizeCore now data).total =
      toLocaleStringJa (parseAmount (getF data "total")) := rfl

theorem normalizeCore_categoryId (now : String) (data : JSValue) :
    (normalizeCore now data).categoryId =
      resolveCategory (getF data "categoryId") := rfl

theorem normalizeCore_items (now : String) (data : JSValue) :
    (normalizeCore now data).items =
      if ((rawSurvivors data).map (mapItem (getF data "categoryId"))).length > 0
      then (rawSurvivors data).map (mapItem (getF data "categoryId"))
      else [{ name := .str "商品"
              price := toLocaleStringJa (parseAmount (getF data "total"))
              categoryId := .str (resolveCategory (getF data "categoryId")) }] := rfl

theorem mapItem_name (dc it : JSValue) : (mapItem dc it).name = getF it "name" := rfl

theorem mapItem_price (dc it : JSValue) :
    (mapItem dc it).price = toLocaleStringJa (parseAmount (getF it "price")) := rfl

theorem mapItem_categoryId (dc it : JSValue) :
    (mapItem dc it).categoryId =
      if truthy (getF it "categoryId") then getF it "categoryId"
      else if truthy dc then dc else .str "other" := rfl

theorem mapItem_categoryId_truthy (dc it : JSValue) :
    truthy (mapItem dc it).categoryId = true ∨ (mapItem dc it).categoryId = .str "other" := by
  rw [mapItem_categoryId]
  by_cases h1 : truthy (getF it "categoryId") = true
  · rw [if_pos h1]; exact Or.inl h1
  · rw [if_neg h1]
    by_cases h2 : truthy dc = true
    · rw [if_pos h2]; exact Or.inl h2
    · rw [if_neg h2]; exact Or.inr rfl

/-- Everything the normalizer in fact guarantees about its output, provided
the formatted current time is a non-empty string. -/
theorem wf_normalizeCore (now : String) (hnow : now ≠ "") (data : JSValue) :
    WF (normalizeCore now data) := by
  refine ⟨?_, ?_, ⟨parseAmount (getF data "total"), normalizeCore_total now data⟩,
    ?_, ?_, ?_⟩
  · rw [normalizeCore_storeName]
    by_cases h : truthy (getF data "storeName") = true
    · rw [if_pos h]; exact h
    · rw [if_neg h]; decide
  · rw [normalizeCore_date]
    by_cases h : truthy (getF data "date") = true
    · rw [if_pos h]; exact h
    · rw [if_neg h]; simp [truthy, hnow]
  · rw [normalizeCore_categoryId]; exact resolveCategory_mem _
  · rw [normalizeCore_items]
    by_cases h : ((rawSurvivors data).map (mapItem (getF data "categoryId"))).length > 0
    · rw [if_pos h]; exact List.ne_nil_of_length_pos h
    · rw [if_neg h]; exact List.cons_ne_nil _ _
  · intro it hit
    rw [normalizeCore_items] at hit
    by_cases h : ((rawSurvivors data).map (mapItem (getF data "categoryId"))).length > 0
    · rw [if_pos h] at hit
      obtain ⟨a, ha, rfl⟩ := List.mem_map.mp hit
      have hsurv : survivorPred a = true := List.of_mem_filter ha
      have hname : truthy (getF a "name") = true :=
        (Bool.and_eq_true _ _ |>.mp hsurv).2
      refine ⟨by rw [mapItem_name]; exact hname,
        ⟨parseAmount (getF a "price"), mapItem_price _ _⟩, ?_⟩
      rcases mapItem_categoryId_truthy (getF data "categoryId") a with h | h
      · exact h
      · rw [h]; decide
    · rw [if_neg h] at hit
      rcases List.mem_singleton.mp hit with rfl
      refine ⟨?_, ⟨parseAmount (getF data "total"), rfl⟩, ?_⟩
      · show truthy (.str "商品") = true
        decide
      · have hne := categories_ne_empty (resolveCategory_mem (getF data "categoryId"))
        show truthy (.str (resolveCategory (getF data "categoryId"))) = true
        simp [truthy, hne]

theorem getF_out_storeName (o : Output) :
    getF (outputToJS o) "storeName" = o.storeName := rfl

theorem getF_out_date (o : Output) : getF (outputToJS o) "date" = o.date := rfl

theorem getF_out_total (o : Output) :
    getF (outputToJS o) "total" = .str o.total := rfl

theorem getF_out_categoryId (o : Output) :
    getF (outputToJS o) "categoryId" = .str o.categoryId := rfl

theorem rawItems_out (o : Output) :
    rawItems (outputToJS o) = o.items.map outItemToJS := rfl

theorem getF_outItem_name (it : OutItem) :
    getF (outItemToJS it) "name" = it.name := rfl

theorem getF_outItem_price (it : OutItem) :
    getF (outItemToJS it) "price" = .str it.price := rfl

theorem getF_outItem_categoryId (it : OutItem) :
    getF (outItemToJS it) "categoryId" = it.categoryId := rfl

/-- A well-formed output is a fixed point of the normalizer, for any clock:
re-normalizing the serialized output changes nothing. -/
theorem normalizeCore_outputToJS (now : String) (o : Output) (h : WF o) :
    normalizeCore now (outputToJS o) = o := by
  obtain ⟨hsn, hdt, ⟨n, htot⟩, hcat, hne, hitems⟩ := h
  have hsurv : rawSurvivors (outputToJS o) = o.items.map outItemToJS := by
    rw [rawSurvivors, rawItems_out]
    refine List.filter_eq_self.mpr ?_
    intro a ha
    obtain ⟨it, hit, rfl⟩ := List.mem_map.mp ha
    rw [survivorPred, getF_outItem_name]
    have hn := (hitems it hit).1
    rw [Bool.and_eq_true]
    exact ⟨rfl, hn⟩
  have hmap : (o.items.map outItemToJS).map
      (mapItem (getF (outputToJS o) "categoryId")) = o.items := by
    rw [List.map_map]
    have : ∀ it ∈ o.items,
        (mapItem (getF (outputToJS o) "categoryId") ∘ outItemToJS) it = it := by
      intro it hit
      obtain ⟨hn, ⟨m, hp⟩, hc⟩ := hitems it hit
      refine outItemExt _ _ ?_ ?_ ?_
      · rw [Function.comp_apply, mapItem_name, getF_outItem_name]
      · rw [Function.comp_apply, mapItem_price, getF_outItem_price, hp,
          parseAmount_fmt]
      · rw [Function.comp_apply, mapItem_categoryId, getF_outItem_categoryId,
          if_pos hc]
    calc o.items.map (mapItem (getF (outputToJS o) "categoryId") ∘ outItemToJS)
        = o.items.map id := List.map_congr_left this
      _ = o.items := List.map_id _
  refine outputExt _ _ ?_ ?_ ?_ ?_ ?_
  · rw [normalizeCore_storeName, getF_out_storeName, if_pos hsn]
  · rw [normalizeCore_date, getF_out_date, if_pos hdt]
  · rw [normalizeCore_total, getF_out_total, htot, parseAmount_fmt]
  · rw [normalizeCore_categoryId, getF_out_categoryId, resolveCategory_of_mem hcat]
  · rw [normalizeCore_items, hsurv, hmap,
      if_pos (List.length_pos.mpr hne)]

/-! ### Further helper lemmas for the claims -/

theorem parseAmount_str_eq (s : String) :
    parseAmount (.str s) = (parseIntJS (stripCommas s)).getD 0 := by
  by_cases h : s = ""
  · subst h; rfl
  · have ht : truthy (.str s) = true := by simp [truthy, h]
    rw [parseAmount, rawAmountString, if_pos ht, jsToString]

theorem stripCommas_idem (s : String) :
    stripCommas (stripCommas s) = stripCommas s := by
  rw [stripCommas, stripCommas]
  show String.mk ((s.data.filter keepChar).filter keepChar) = _
  rw [List.filter_filter]
  congr 1
  apply List.filter_congr
  intro a _
  rw [Bool.and_self]

theorem parseIntList_nonneg {cs : List Char} {z : Int}
    (h : parseIntList cs = some z) (hm : '-' ∉ cs) : 0 ≤ z := by
  match cs with
  | [] => exact absurd h (by simp [parseIntList])
  | c :: rest =>
    have hcm : c ≠ '-' := fun e => hm (by simp [e])
    rw [parseIntList, if_neg hcm] at h
    by_cases hp : c = '+'
    · rw [if_pos hp] at h
      obtain ⟨w, _, hz⟩ := Option.map_eq_some'.mp h
      rw [← hz]
      exact Int.ofNat_nonneg w
    · rw [if_neg hp] at h
      obtain ⟨w, _, hz⟩ := Option.map_eq_some'.mp h
      rw [← hz]
      exact Int.ofNat_nonneg w

theorem parseIntJS_nonneg {s : String} {z : Int}
    (h : parseIntJS s = some z) (hm : '-' ∉ s.data) : 0 ≤ z := by
  rw [parseIntJS] at h
  refine parseIntList_nonneg h fun hmem => hm ?_
  exact (List.dropWhile_sublist isWs).mem hmem

theorem normalizeCore_clock_indep (now1 now2 : String) (data : JSValue)
    (h : truthy (getF data "date") = true) :
    normalizeCore now1 data = normalizeCore now2 data := by
  refine outputExt _ _ ?_ ?_ ?_ ?_ ?_
  · rw [normalizeCore_storeName, normalizeCore_storeName]
  · rw [normalizeCore_date, normalizeCore_date, if_pos h, if_pos h]
  · rw [normalizeCore_total, normalizeCore_total]
  · rw [normalizeCore_categoryId, normalizeCore_categoryId]
  · rw [normalizeCore_items, normalizeCore_items]

theorem normalize_ok_wf {now : String} {data : JSValue} {o : Output}
    (hnow : now ≠ "") (h : normalize now data = .ok o) : WF o := by
  cases data with
  | null => exact absurd h (by simp [normalize])
  | undefined => exact absurd h (by simp [normalize])
  | bool b => injection h with h; rw [← h]; exact wf_normalizeCore now hnow _
  | num n => injection h with h; rw [← h]; exact wf_normalizeCore now hnow _
  | str s => injection h with h; rw [← h]; exact wf_normalizeCore now hnow _
  | arr xs => injection h with h; rw [← h]; exact wf_normalizeCore now hnow _
  | obj fs => injection h with h; rw [← h]; exact wf_normalizeCore now hnow _

theorem imageSrcCheck_nonstring (v : JSValue) (h : ∀ s, v ≠ .str s) :
    imageSrcCheck v = .respond 400 (.obj [("error", .str "imageSrc is required.")]) := by
  cases v with
  | str s => exact absurd rfl (h s)
  | undefined => rfl
  | null => rfl
  | bool b => rfl
  | num n => rfl
  | arr xs => rfl
  | obj fs => rfl

/-! ### Claim theorems -/

/-- C3 counterexample: the claim says the normalized total is always a
non-negative integer amount, but the input total "-5" normalizes to the
total "-5", which renders the negative integer -5 (and -5 < 0). -/
theorem C3_counterexample :
    (normalizeCore "now" (.obj [("total", .str "-5")])).total = "-5" ∧
    parseAmount (.str "-5") = -5 ∧ toLocaleStringJa (-5) = "-5" ∧
    ((-5 : Int) < 0) := by
  exact ⟨by decide, by decide, by decide, by decide⟩

/-- C3 (amended): for every input the normalized total (and, by the same
rule, every item price) is an integer amount, rendered by the grouping
formatter; it is non-negative whenever the comma-stripped raw amount text
contains no minus sign, but a leading minus sign parses through and
produces a negative amount. -/
theorem C3_amounts_are_integers :
    (∀ (now : String) (data : JSValue),
      (normalizeCore now data).total =
        toLocaleStringJa (parseAmount (getF data "total"))) ∧
    (∀ v : JSValue, '-' ∉ (stripCommas (rawAmountString v)).data →
      0 ≤ parseAmount v) := by
  refine ⟨fun now data => normalizeCore_total now data, ?_⟩
  intro v h
  rw [parseAmount]
  cases hp : parseIntJS (stripCommas (rawAmountString v)) with
  | none => simp
  | some z =>
    simp only [Option.getD_some]
    exact parseIntJS_nonneg hp h

/-- C3 witness: the amended claim applied at the concrete input "12". -/
theorem C3_amounts_are_integers_witness :
    '-' ∉ (stripCommas (rawAmountString (.str "12"))).data ∧
    0 ≤ parseAmount (.str "12") :=
  ⟨by decide, C3_amounts_are_integers.2 (.str "12") (by decide)⟩

/-- C4: total-amount parsing strips every ASCII and full-width comma and
parses the remainder with `parseInt`, substituting zero when parsing
fails; in particular "2,580" and "2，580" parse to 2580, and "abc" or a
missing total parse to 0. -/
theorem C4_total_parsing :
    (∀ s : String, parseAmount (.str s) = (parseIntJS (stripCommas s)).getD 0) ∧
    (∀ s : String, parseAmount (.str (stripCommas s)) = parseAmount (.str s)) ∧
    parseAmount (.str "2,580") = 2580 ∧
    parseAmount (.str "2，580") = 2580 ∧
    parseAmount (.str "abc") = 0 ∧
    parseAmount .undefined = 0 := by
  refine ⟨parseAmount_str_eq, ?_, by decide, by decide, by decide, by decide⟩
  intro s
  rw [parseAmount_str_eq, parseAmount_str_eq, stripCommas_idem]

/-- C5: whenever no raw item survives the `item && item.name` filter
(missing, non-array or empty `items` included), the output item list is
exactly one placeholder item whose price is the receipt's formatted total
and whose category is the receipt's resolved category; and the output item
list is never empty. -/
theorem C5_singleton_fallback :
    (∀ (now : String) (data : JSValue), rawSurvivors data = [] →
      (normalizeCore now data).items =
        [{ name := .str "商品"
           price := (normalizeCore now data).total
           categoryId := .str ((normalizeCore now data).categoryId) }]) ∧
    (∀ (now : String) (data : JSValue), (normalizeCore now data).items ≠ []) := by
  constructor
  · intro now data h
    rw [normalizeCore_items, h]
    simp [normalizeCore_total, normalizeCore_categoryId]
  · intro now data
    rw [normalizeCore_items]
    by_cases h : ((rawSurvivors data).map (mapItem (getF data "categoryId"))).length > 0
    · rw [if_pos h]; exact List.ne_nil_of_length_pos h
    · rw [if_neg h]; exact List.cons_ne_nil _ _

/-- C5 witness: an item list whose entries are all filtered out (an
empty-named item and a null entry) produces exactly the placeholder
item. -/
theorem C5_singleton_fallback_witness :
    rawSurvivors (.obj [("items", .arr [.obj [("name", .str "")], .null])]) = [] ∧
    (normalizeCore "t" (.obj [("items", .arr [.obj [("name", .str "")], .null])])).items =
      [{ name := .str "商品"
         price := (normalizeCore "t"
           (.obj [("items", .arr [.obj [("name", .str "")], .null])])).total
         categoryId := .str ((normalizeCore "t"
           (.obj [("items", .arr [.obj [("name", .str "")], .null])])).categoryId) }] :=
  ⟨rfl, C5_singleton_fallback.1 "t" _ rfl⟩

/-- C7: the normalizer is a pure function of the input and the clock
reading (so two runs with the same input and clock agree by construction),
and when the raw date field is truthy (present and non-empty) the output
does not depend on the clock at all. -/
theorem C7_clock_independence (now1 now2 : String) (data : JSValue)
    (h : truthy (getF data "date") = true) :
    normalize now1 data = normalize now2 data := by
  cases data with
  | null => rfl
  | undefined => rfl
  | bool b => exact congrArg Except.ok (normalizeCore_clock_indep now1 now2 _ h)
  | num n => exact congrArg Except.ok (normalizeCore_clock_indep now1 now2 _ h)
  | str s => exact congrArg Except.ok (normalizeCore_clock_indep now1 now2 _ h)
  | arr xs => exact congrArg Except.ok (normalizeCore_clock_indep now1 now2 _ h)
  | obj fs => exact congrArg Except.ok (normalizeCore_clock_indep now1 now2 _ h)

/-- C7 witness: with a present, non-empty date the two clock readings "a"
and "b" give the same result. -/
theorem C7_clock_independence_witness :
    normalize "a" (.obj [("date", .str "2024年1月2日 03:04")]) =
      normalize "b" (.obj [("date", .str "2024年1月2日 03:04")]) :=
  C7_clock_independence "a" "b" _ (by decide)

/-- C8: the amount parser takes the leading integer prefix of the
comma-stripped text (an optional sign, then the longest digit run), so
"2,580円" parses to 2580; the zero fallback applies exactly when the
stripped text has no parseable integer prefix. -/
theorem C8_leading_integer_prefix_parsing :
    (∀ (neg : Bool) (ds rest : List Char), ds ≠ [] →
      (∀ c ∈ ds, isDigit c = true) →
      (∀ c ∈ rest.head?, isDigit c = false) →
      parseIntJS (String.mk ((if neg then ['-'] else []) ++ ds ++ rest)) =
        some (if neg then -(digitsVal ds : Int) else (digitsVal ds : Int))) ∧
    parseAmount (.str "2,580円") = 2580 ∧
    (∀ s : String, parseIntJS (stripCommas s) = none → parseAmount (.str s) = 0) := by
  refine ⟨?_, by decide, ?_⟩
  · intro neg ds rest hne hds hrest
    cases neg with
    | false => simpa using parseIntJS_digits ds rest hne hds hrest
    | true => simpa using parseIntJS_neg_digits ds rest hne hds hrest
  · intro s h
    rw [parseAmount_str_eq, h]
    rfl

/-- C8 witness: the prefix rule applied to the digit run 2580 followed by
the non-digit 円. -/
theorem C8_leading_integer_prefix_parsing_witness :
    parseIntJS (String.mk ((if false then ['-'] else []) ++
        ['2', '5', '8', '0'] ++ ['円'])) =
      some (if false then -(digitsVal ['2', '5', '8', '0'] : Int)
            else (digitsVal ['2', '5', '8', '0'] : Int)) :=
  C8_leading_integer_prefix_parsing.1 false ['2', '5', '8', '0'] ['円']
    (by decide) (by decide)
    (fun c hc => by simp only [List.head?] at hc; cases hc; decide)

/-- C1 counterexample: an item with the invalid category "invalidcat" on a
receipt with the invalid category "sports" keeps "invalidcat" in the
output — the claimed membership check and fallback to the resolved
receipt category ("other") do not happen, and the output category is not a
member of the enumeration. -/
theorem C1_counterexample :
    ((normalizeCore "now"
        (.obj [("categoryId", .str "sports"),
               ("items", .arr [.obj [("name", .str "coffee"),
                                     ("categoryId", .str "invalidcat")]])])).items.map
      OutItem.categoryId = [.str "invalidcat"]) ∧
    "invalidcat" ∉ categories ∧
    resolveCategory (.str "sports") = "other" := by
  refine ⟨rfl, by decide, by decide⟩

/-- C1 (amended): for every raw item surviving the name filter, the output
categoryId is the raw item-level categoryId when it is truthy (with no
membership check against the Category enumeration), otherwise the raw
receipt-level categoryId when truthy, otherwise the string "other"; output
item categories are consequently not guaranteed to lie in the
enumeration. -/
theorem C1_item_category_resolution :
    ∀ (now : String) (data : JSValue) (i : Nat) (it : JSValue),
      (rawSurvivors data)[i]? = some it →
      ∃ oit, ((normalizeCore now data).items)[i]? = some oit ∧
        oit.categoryId =
          (if truthy (getF it "categoryId") then getF it "categoryId"
           else if truthy (getF data "categoryId") then getF data "categoryId"
           else .str "other") := by
  intro now data i it h
  obtain ⟨hi, _⟩ := List.getElem?_eq_some.mp h
  rw [normalizeCore_items, if_pos (by rw [List.length_map]; omega)]
  refine ⟨mapItem (getF data "categoryId") it, ?_, mapItem_categoryId _ _⟩
  rw [List.getElem?_map, h]
  rfl

/-- C1 witness: the amended resolution rule at a surviving item with the
truthy, non-member category "invalidcat". -/
theorem C1_item_category_resolution_witness :
    (rawSurvivors (.obj [("categoryId", .str "sports"),
        ("items", .arr [.obj [("name", .str "coffee"),
                              ("categoryId", .str "invalidcat")]])]))[0]? =
      some (.obj [("name", .str "coffee"), ("categoryId", .str "invalidcat")]) ∧
    ∃ oit, ((normalizeCore "now"
        (.obj [("categoryId", .str "sports"),
               ("items", .arr [.obj [("name", .str "coffee"),
                                     ("categoryId", .str "invalidcat")]])])).items)[0]? =
        some oit ∧
      oit.categoryId =
        (if truthy (getF (.obj [("name", .str "coffee"),
            ("categoryId", .str "invalidcat")]) "categoryId")
         then getF (.obj [("name", .str "coffee"),
            ("categoryId", .str "invalidcat")]) "categoryId"
         else if truthy (getF (.obj [("categoryId", .str "sports"),
            ("items", .arr [.obj [("name", .str "coffee"),
                                  ("categoryId", .str "invalidcat")]])]) "categoryId")
         then getF (.obj [("categoryId", .str "sports"),
            ("items", .arr [.obj [("name", .str "coffee"),
                                  ("categoryId", .str "invalidcat")]])]) "categoryId"
         else .str "other") :=
  ⟨rfl, C1_item_category_resolution "now" _ 0 _ rfl⟩

/-- C2 counterexample: the claim fails in four ways — a null input makes
the normalization step throw instead of returning a receipt; a "-5" total
yields a negative amount; an invalid truthy item category ("sports")
survives into the output; and a numeric storeName (42) is passed through,
so the output storeName is not text. -/
theorem C2_counterexample :
    normalize "now" .null = .error "TypeError: cannot read properties of null" ∧
    (normalizeCore "now" (.obj [("total", .str "-5")])).total = "-5" ∧
    ((normalizeCore "now"
        (.obj [("items", .arr [.obj [("name", .str "x"),
                                     ("categoryId", .str "sports")]])])).items.map
      OutItem.categoryId = [.str "sports"]) ∧
    (normalizeCore "now" (.obj [("storeName", .num 42)])).storeName = .num 42 := by
  refine ⟨rfl, by decide, rfl, rfl⟩

/-- C2 (amended): for every input other than null and undefined (on which
property access throws), normalization terminates and returns a receipt
whose storeName and date are truthy, whose total and item prices are
formatted integer amounts (possibly negative), whose receipt-level
categoryId is a valid Category, and whose item list is non-empty with
truthy names and truthy item categories — provided the formatted clock
string is non-empty. -/
theorem C2_normalize_wf (now : String) (data : JSValue) (hnow : now ≠ "")
    (h1 : data ≠ .null) (h2 : data ≠ .undefined) :
    ∃ o, normalize now data = .ok o ∧ WF o := by
  cases data with
  | null => exact absurd rfl h1
  | undefined => exact absurd rfl h2
  | bool b => exact ⟨_, rfl, wf_normalizeCore now hnow _⟩
  | num n => exact ⟨_, rfl, wf_normalizeCore now hnow _⟩
  | str s => exact ⟨_, rfl, wf_normalizeCore now hnow _⟩
  | arr xs => exact ⟨_, rfl, wf_normalizeCore now hnow _⟩
  | obj fs => exact ⟨_, rfl, wf_normalizeCore now hnow _⟩

/-- C2 witness: the empty object normalizes successfully to a well-formed
receipt. -/
theorem C2_normalize_wf_witness :
    ∃ o, normalize "t" (.obj []) = .ok o ∧ WF o :=
  C2_normalize_wf "t" (.obj []) (by decide)
    (fun h => JSValue.noConfusion h) (fun h => JSValue.noConfusion h)

/-- C6: idempotence — any receipt produced by the normalizer (under a
non-empty clock string) is a fixed point: normalizing its serialized form
again, under any clock, returns it unchanged, preserving store name, date,
category, total and the item list. -/
theorem C6_idempotence (now1 now2 : String) (data : JSValue) (o : Output)
    (hnow : now1 ≠ "") (h : normalize now1 data = .ok o) :
    normalize now2 (outputToJS o) = .ok o := by
  have ho : WF o := normalize_ok_wf hnow h
  show Except.ok (normalizeCore now2 (outputToJS o)) = Except.ok o
  exact congrArg Except.ok (normalizeCore_outputToJS now2 o ho)

/-- C6 witness: re-normalizing the output of the empty object. -/
theorem C6_idempotence_witness :
    normalize "u" (outputToJS (normalizeCore "t" (.obj []))) =
      .ok (normalizeCore "t" (.obj [])) :=
  C6_idempotence "t" "u" (.obj []) _ (by decide) rfl

/-- C9 counterexample: when the server API key is not configured, a POST
with a missing imageSrc is answered with 500 for the missing key, not with
the claimed 400 — the key check precedes the imageSrc check. -/
theorem C9_counterexample :
    handlerPhase1 none { method := "POST", body := .obj [] } =
      .respond 500
        (.obj [("error", .str "OPENAI_API_KEY is not set on the server.")]) := rfl

/-- C9 (amended): a non-POST request is answered with 405 and the
"Method not allowed" error body, without the response depending on the
request body and without the external call being issued; and — provided
the server API key is configured non-empty — a POST whose imageSrc is
missing or not a string is answered with 400 and the "imageSrc is
required." error body, again with no external call. -/
theorem C9_handler_guards :
    (∀ (key : Option String) (req : Request), req.method ≠ "POST" →
      handlerPhase1 key req =
        .respond 405 (.obj [("error", .str "Method not allowed")]) ∧
      ∀ b : JSValue,
        handlerPhase1 key { method := req.method, body := b } =
          handlerPhase1 key req) ∧
    (∀ (key : Option String) (req : Request), req.method = "POST" →
      hasKey key = true →
      (∀ s : String, getF (bodyOr req.body) "imageSrc" ≠ .str s) →
      handlerPhase1 key req =
        .respond 400 (.obj [("error", .str "imageSrc is required.")])) := by
  constructor
  · intro key req h
    constructor
    · rw [handlerPhase1, if_pos h]
    · intro b
      show handlerPhase1 key { method := req.method, body := b } = _
      rw [handlerPhase1, if_pos h, handlerPhase1, if_pos h]
  · intro key req hm hk hv
    rw [handlerPhase1, if_neg (by simp [hm]), if_neg (by simp [hk])]
    exact imageSrcCheck_nonstring _ hv

/-- C9 witness: a GET request is answered 405 regardless of body, and a
configured key with a bodyless POST is answered 400. -/
theorem C9_handler_guards_witness :
    handlerPhase1 (some "k") { method := "GET", body := .obj [] } =
      .respond 405 (.obj [("error", .str "Method not allowed")]) ∧
    handlerPhase1 (some "k") { method := "POST", body := .obj [] } =
      .respond 400 (.obj [("error", .str "imageSrc is required.")]) :=
  ⟨(C9_handler_guards.1 (some "k") _ (by decide)).1,
   C9_handler_guards.2 (some "k") _ rfl (by decide)
     (fun s h => JSValue.noConfusion h)⟩

/-- C10: the store-name fallback and the item-name filter test only JS
truthiness, so truthy non-string values pass through unchanged: a truthy
storeName is emitted as-is, surviving item names are emitted as-is, and in
particular the numeric storeName 42 and item name 7 appear untouched in
the output, which is therefore not guaranteed to contain strings there. -/
theorem C10_truthiness_passthrough :
    (∀ (now : String) (data : JSValue), truthy (getF data "storeName") = true →
      (normalizeCore now data).storeName = getF data "storeName") ∧
    (∀ (now : String) (data : JSValue), rawSurvivors data ≠ [] →
      (normalizeCore now data).items.map OutItem.name =
        (rawSurvivors data).map (fun it => getF it "name")) ∧
    ((normalizeCore "t" (.obj [("storeName", .num 42),
        ("items", .arr [.obj [("name", .num 7),
                              ("price", .str "10")]])])).storeName = .num 42) ∧
    (∀ s : String, JSValue.num 42 ≠ .str s) ∧
    ((normalizeCore "t" (.obj [("storeName", .num 42),
        ("items", .arr [.obj [("name", .num 7),
                              ("price", .str "10")]])])).items.map
      OutItem.name = [.num 7]) := by
  refine ⟨?_, ?_, rfl, fun s h => JSValue.noConfusion h, rfl⟩
  · intro now data h
    rw [normalizeCore_storeName, if_pos h]
  · intro now data h
    rw [normalizeCore_items,
      if_pos (by rw [List.length_map]; exact List.length_pos.mpr h),
      List.map_map]
    congr 1

/-- C10 witness: the truthy storeName passthrough at the numeric value
42. -/
theorem C10_truthiness_passthrough_witness :
    truthy (getF (.obj [("storeName", .num 42)]) "storeName") = true ∧
    (normalizeCore "t" (.obj [("storeName", .num 42)])).storeName =
      getF (.obj [("storeName", .num 42)]) "storeName" :=
  ⟨by decide, C10_truthiness_passthrough.1 "t" _ (by decide)⟩

end ReceiptReader
